import Mathlib

/-!
Shallow embedding of the anomaly-detection core of the Finance-Assistant
repository (`src/server/ml/anomalyDetection.js`), together with theorems
settling the specification claims about it.

Modelling conventions:
* JS numbers that flow through `parseFloat` are modelled as `Option ℚ`:
  `some q` is an ordinary numeric value, `none` is `NaN` (an unparseable
  amount).  Every JS comparison with `NaN` is `false`; the embedding makes
  this explicit at each use site.
* A successfully constructed `Date` is modelled as a `JSDate` record carrying
  the epoch-milliseconds value (`getTime`) together with the host-provided
  calendar fields `getDate` (day of month) and `getDay` (day of week); an
  invalid date (`isNaN(getTime())`) is `none`.
* `stdDev = Math.sqrt(variance)` is irrational in general, so the embedding
  never stores `stdDev` itself.  The comparison `x > mean + 2.5 * stdDev`
  is encoded over ℚ by the algebraically equivalent
  `mean < x ∧ 25 * variance < 4 * (x - mean)^2`
  (for `variance ≥ 0`: `d > 2.5·√v ↔ d > 0 ∧ d² > 6.25·v`), and an anomaly
  score `(amount - mean)/stdDev` is stored symbolically as the pair
  `(amount - mean, variance)`; see `ScoreRepr`.
* The Firestore fetches are modelled as an `Except String (List Tx)`
  parameter (the snapshot the query would return, or a store failure), and
  the isolation-forest library as a function parameter returning `MLOutcome`.
* `console.log`/`console.warn`/`console.error` instrumentation is not part
  of the contract (spec §9) and is not modelled.
-/

/-- A successfully parsed JS `Date`: `time` is `getTime()` in milliseconds,
`dayOfMonth` is `getDate()` (1-31) and `dayOfWeek` is `getDay()` (0-6), both
supplied by the host calendar. -/
structure JSDate where
  time : ℤ
  dayOfMonth : ℤ
  dayOfWeek : ℤ
deriving DecidableEq

/-- A transaction record as consumed by the detector.  `amount` is the
`parseFloat` view of the raw amount (`none` = `NaN`), `date` is the parsed
date (`none` = invalid).  `categoryName` is `none` when the field is absent
or empty (both are falsy in JS). -/
structure Tx where
  id : String
  amount : Option ℚ
  date : Option JSDate
  category : String
  categoryName : Option String
deriving DecidableEq

/-- `getTime()` of a transaction's date, as used by the sort comparators.
For an invalid date the JS comparator would yield `NaN` (order then
implementation-defined); the model returns `0` there, which no theorem
relies on. -/
def jsTime (t : Tx) : ℤ :=
  (t.date.map JSDate.time).getD 0

/-- An anomaly score, kept symbolic so that the embedding stays exact:
`model q` is an ordinary isolation-forest score `q`; `window d v` is the
sliding-window score `d / √v` (with `d = amount - mean`, `v = variance`),
whose JS value is `+∞` when `v = 0` and `d > 0`. -/
inductive ScoreRepr
  | model (q : ℚ)
  | window (d v : ℚ)
deriving DecidableEq

/-- Whether the real value of a score exceeds the constant `c` (used only
with `c ≥ 0`, matching the source's band checks `score > 5`, `score > 3`). -/
def ScoreRepr.gtQ : ScoreRepr → ℚ → Bool
  | .model q, c => decide (c < q)
  | .window d v, c =>
      if v = 0 then decide (0 < d)
      else decide (0 < d) && decide (c ^ 2 * v < d ^ 2)

/-- The square of the absolute value of a score; `none` stands for the
square of an infinite score.  Squaring is order-preserving on absolute
values, so this is the comparison key used to model `Math.abs(score)`
ordering exactly. -/
def absSqVal : ScoreRepr → Option ℚ
  | .model q => some (q ^ 2)
  | .window d v => if v = 0 then none else some (d ^ 2 / v)

/-- `|value s| ≤ |value t|`, compared through the squares (`none` = ∞ is a
top element). -/
def absSqLe (s t : ScoreRepr) : Bool :=
  match absSqVal s, absSqVal t with
  | _, none => true
  | none, some _ => false
  | some a, some b => decide (a ≤ b)

/-- `Math.min` on exact rationals (spelled out so that it reduces in the
kernel). -/
def jsMin (a b : ℚ) : ℚ := if a ≤ b then a else b

/-- `Math.max` on exact rationals. -/
def jsMax (a b : ℚ) : ℚ := if a ≤ b then b else a

/-- Sum-then-divide mean of a list of amounts (line 59 of the source). -/
def meanOf (l : List ℚ) : ℚ := l.sum / (l.length : ℚ)

/-- Population variance of a list of amounts (the radicand of the `stdDev`
computation on lines 60-62 of the source). -/
def varOf (l : List ℚ) : ℚ :=
  (l.map (fun v => (v - meanOf l) ^ 2)).sum / (l.length : ℚ)

/-- `currentAmount > mean + 2.5 * stdDev` (line 69), encoded over ℚ by
squaring: for `v ≥ 0`, `cur - m > 2.5·√v ↔ m < cur ∧ 25·v < 4·(cur-m)²`. -/
def exceedsThreshold (cur m v : ℚ) : Bool :=
  decide (m < cur) && decide (25 * v < 4 * (cur - m) ^ 2)

/-- `windowSize = 10` (line 45). -/
def windowSize : ℕ := 10

/-- `minWindowSize = 5` (line 46). -/
def minWindowSize : ℕ := 5

/-- `transactions.slice(i - availableContext, i)` with
`availableContext = Math.min(windowSize, i)` (lines 54-55). -/
def contextAt (txs : List Tx) (i : ℕ) : List Tx :=
  (txs.take i).drop (i - min windowSize i)

/-- Mean and variance of the context window's amounts.  `none` when some
amount is `NaN`: in JS that poisons `mean`, `stdDev` and `threshold` with
`NaN`, so every downstream `>` comparison is `false`. -/
def windowStats (ctx : List Tx) : Option (ℚ × ℚ) :=
  (ctx.mapM Tx.amount).map (fun as => (meanOf as, varOf as))

/-- The date-ascending comparator as a relation. -/
def dateLe (a b : Tx) : Prop := jsTime a ≤ jsTime b

instance : DecidableRel dateLe := fun a b =>
  inferInstanceAs (Decidable (jsTime a ≤ jsTime b))

/-- Sorting by date ascending, `transactions.sort((a, b) => new Date(a.date) - new Date(b.date))`
(line 42).  JS `Array.prototype.sort` is stable (ES2019), and for a
consistent comparator a stable sorted permutation is unique, so the stable
`insertionSort` computes the same list. -/
def sortByDateAsc (txs : List Tx) : List Tx :=
  txs.insertionSort dateLe

/-- Round a rational half away from zero is not needed; the source's
`toFixed` is modelled with round-half-up on the exact rational, which
agrees with JS on every decimally exact value appearing in this file. -/
def ratRoundHalfUp (q : ℚ) : ℤ := ⌊q + 1 / 2⌋

/-- Left-pad a digit string with zeros to length `n`. -/
def padZeros (n : ℕ) (s : String) : String :=
  String.mk (List.replicate (n - s.length) '0') ++ s

/-- Model of `Number.prototype.toFixed(nd)` for the exact rationals used
here (JS applies it to binary doubles; the values interpolated in this
development are decimally exact, where both agree). -/
def toFixedQ (nd : ℕ) (q : ℚ) : String :=
  let scaled : ℤ := ratRoundHalfUp (q * ((10 : ℚ) ^ nd))
  let sgn := if scaled < 0 then "-" else ""
  let n := scaled.natAbs
  if nd = 0 then sgn ++ toString n
  else sgn ++ toString (n / 10 ^ nd) ++ "." ++ padZeros nd (toString (n % 10 ^ nd))

/-- `currentTx.categoryName || ''`. -/
def nameOr (t : Tx) : String := t.categoryName.getD ""

/-- The inline reason text of the sliding-window detector (lines 73-80),
with the band checks `score > 5` / `score > 3` carried out on the exact
score `d/√v` via `ScoreRepr.gtQ`. -/
def windowReason (cur : Tx) (amt m v : ℚ) : String :=
  if (ScoreRepr.window (amt - m) v).gtQ 5 then
    "This expense of $" ++ toFixedQ 2 amt ++
      " is extremely high compared to your typical " ++ nameOr cur ++
      " spending of around $" ++ toFixedQ 2 m ++ "."
  else if (ScoreRepr.window (amt - m) v).gtQ 3 then
    "This expense is significantly higher than your average " ++ nameOr cur ++
      " spending from this time period."
  else
    "This " ++ nameOr cur ++
      " expense is higher than your typical spending pattern at the time."

/-- An anomaly record: the spread transaction plus `anomalyScore` and
`reason` (lines 82-86). -/
structure Anomaly where
  tx : Tx
  anomalyScore : ScoreRepr
  reason : String
deriving DecidableEq

/-- One iteration of the sliding-window loop body (lines 49-88) at index
`i` of the already-sorted array: returns the pushed anomaly record, or
`none` when index `i` is out of range, some involved amount is `NaN`
(`currentAmount > NaN` is `false` in JS), or the threshold is not
exceeded. -/
def flagAt (sorted : List Tx) (i : ℕ) : Option Anomaly :=
  match sorted[i]? with
  | none => none
  | some cur =>
    match windowStats (contextAt sorted i), cur.amount with
    | some (m, v), some amt =>
      if exceedsThreshold amt m v then
        some { tx := cur, anomalyScore := .window (amt - m) v,
               reason := windowReason cur amt m v }
      else none
    | _, _ => none

/-- The array contents the caller observes after
`detectAnomaliesWithSlidingWindow` returns: line 42 sorts the caller's
array in place. -/
def slidingWindowArrayAfterCall (txs : List Tx) : List Tx := sortByDateAsc txs

/-- `detectAnomaliesWithSlidingWindow` (lines 40-91): sort by date
ascending, then scan indices `minWindowSize ≤ i < length`, collecting the
flagged records in encounter order. -/
def detectAnomaliesWithSlidingWindow (txs : List Tx) : List Anomaly :=
  let sorted := sortByDateAsc txs
  ((List.range sorted.length).drop minWindowSize).filterMap (flagAt sorted)

/-- Outcome of the external isolation-forest library on one feature matrix:
either the `fit`/`scores` call raises, or it returns a score per sample
(`none` encoding a `NaN` score). -/
inductive MLOutcome
  | throws
  | scores (ss : List (Option ℚ))
deriving DecidableEq

/-- The usable score list of an outcome: `none` when the call raised or any
score is `NaN` — in the source both routes throw inside the inner `try`
(lines 144-151) and land in the same `catch`. -/
def mlScores? : MLOutcome → Option (List ℚ)
  | .throws => none
  | .scores ss => ss.mapM id

/-- The model-failure condition of spec section 4.3: the fit/score step
raised, or some returned score is non-numeric. -/
def MLOutcome.fails : MLOutcome → Prop
  | .throws => True
  | .scores ss => none ∈ ss

/-- Day-of-week names (line 248). -/
def weekdayNames : List String :=
  ["Sunday", "Monday", "Tuesday", "Wednesday", "Thursday", "Friday", "Saturday"]

/-- The weekday name of a transaction's date (line 249); the source computes
this value but does not interpolate it into any returned string. -/
def weekdayNameOf (t : Tx) : String :=
  (weekdayNames.getD (match t.date with | some d => d.dayOfWeek.toNat | none => 0) "")

/-- `Math.max(...amounts)`; the empty case (JS `-Infinity`) is unreachable
here because every caller passes at least 5 transactions. -/
def listMaxQ : List ℚ → ℚ
  | [] => 0
  | a :: as => as.foldl jsMax a

/-- `generateAnomalyReason` (lines 231-252).  When every amount is numeric,
`avgAmount` and the ratio are exact; with any `NaN` amount (or a
non-numeric `anomaly.amount`) every JS comparison and the strict equality
against `maxAmount` are `false`, so the final generic branch is taken —
the catch-all arm below.  The ℚ division `amt / avg` matches JS whenever
`avg ≠ 0` (theorems about this function assume that; JS would give `±∞`
ratios on a zero mean). -/
def generateAnomalyReason (anomaly : Tx) (allTransactions : List Tx) : String :=
  match allTransactions.mapM Tx.amount, anomaly.amount with
  | some amounts, some amt =>
    let avgAmount := meanOf amounts
    let maxAmount := listMaxQ amounts
    if 3 < amt / avgAmount then
      "This expense is " ++ toFixedQ 1 (amt / avgAmount) ++
        "x higher than your average " ++ nameOr anomaly ++ " spending."
    else if 3 / 2 < amt / avgAmount then
      "This expense is significantly higher than your typical " ++
        nameOr anomaly ++ " transactions."
    else if amt = maxAmount then
      "This is your largest recorded expense in the " ++ nameOr anomaly ++
        " category."
    else
      "This " ++ nameOr anomaly ++
        " expense has an unusual pattern (timing, amount, or frequency) compared to your typical spending."
  | _, _ =>
      "This " ++ nameOr anomaly ++
        " expense has an unusual pattern (timing, amount, or frequency) compared to your typical spending."

/-- `categoryId.charAt(0).toUpperCase() + categoryId.slice(1)` (lines 181,
212). -/
def capitalizeJs (s : String) : String :=
  match s.toList with
  | [] => ""
  | c :: cs => String.mk (c.toUpper :: cs)

/-- The category-name fix-up applied to each returned anomaly (lines
176-183 and 207-214): when the record's `categoryName` is falsy and its
`category` is truthy, copy the name from any fetched transaction that has
one, else capitalize the category identifier. -/
def resolveName (categoryId : String) (transactions : List Tx) (a : Anomaly) : Anomaly :=
  if a.tx.categoryName.isNone && (a.tx.category != "") then
    match transactions.find? (fun t => t.categoryName.isSome && (t.category == categoryId)) with
    | some t => { a with tx := { a.tx with categoryName := t.categoryName } }
    | none => { a with tx := { a.tx with categoryName := some (capitalizeJs categoryId) } }
  else a

/-- `preprocessTransactions` for one record (lines 10-36): the 4-element
feature vector [amount or 0, day-of-month or 1, day-of-week or 0,
recency `min(1, (now - time)/30 days)` or 0.5]. -/
def preprocessTransaction (now : ℤ) (t : Tx) : List ℚ :=
  [ t.amount.getD 0,
    match t.date with | some d => (d.dayOfMonth : ℚ) | none => 1,
    match t.date with | some d => (d.dayOfWeek : ℚ) | none => 0,
    match t.date with
    | some d => jsMin 1 (((now : ℚ) - (d.time : ℚ)) / (1000 * 60 * 60 * 24 * 30))
    | none => 1 / 2 ]

/-- `preprocessTransactions` (lines 5-37). -/
def preprocessTransactions (now : ℤ) (txs : List Tx) : List (List ℚ) :=
  txs.map (preprocessTransaction now)

/-- The successful isolation-forest path (lines 158-185): attach scores,
keep those below `-0.3`, sort ascending by score (most anomalous first),
then attach reasons — computed against the record's original
`categoryName` — and finally the category-name fix-up. -/
def mlPathAnomalies (categoryId : String) (transactions : List Tx) (scores : List ℚ) :
    List Anomaly :=
  let flagged := (transactions.zip scores).filter (fun p => decide (p.2 < -(3 / 10)))
  let sortedF := flagged.insertionSort (fun p q => p.2 ≤ q.2)
  sortedF.map (fun p =>
    resolveName categoryId transactions
      { tx := p.1, anomalyScore := .model p.2,
        reason := generateAnomalyReason p.1 transactions })

/-- The fallback path of the inner `catch` (lines 190-222): run the
sliding-window detector on the same transactions and apply the same
category-name fix-up. -/
def fallbackAnomalies (categoryId : String) (transactions : List Tx) : List Anomaly :=
  (detectAnomaliesWithSlidingWindow transactions).map (resolveName categoryId transactions)

/-- The value returned by `detectAnomaliesForCategory`: `method` is present
only on the fallback path, `message` only on insufficient data. -/
structure CategoryResult where
  anomalies : List Anomaly
  categoryId : String
  method : Option String
  message : Option String
deriving DecidableEq

/-- `detectAnomaliesForCategory` (lines 94-228).  `fetch` is the snapshot
the Firestore query would deliver (type `expense`, the category, date
ascending) or a store failure; `ml` is the external isolation-forest
library applied to the feature matrix.  A store failure reaches the outer
`catch`, which rethrows (lines 224-227); a model failure is caught by the
inner `catch` and falls back (lines 187-223). -/
def detectAnomaliesForCategory (now : ℤ) (ml : List (List ℚ) → MLOutcome)
    (categoryId : String) (fetch : Except String (List Tx)) :
    Except String CategoryResult :=
  match fetch with
  | .error e => .error e
  | .ok transactions =>
    if transactions.length < 5 then
      .ok { anomalies := [], categoryId := categoryId, method := none,
            message := some "Not enough transaction data for anomaly detection" }
    else
      match mlScores? (ml (preprocessTransactions now transactions)) with
      | some scores =>
          .ok { anomalies := mlPathAnomalies categoryId transactions scores,
                categoryId := categoryId, method := none, message := none }
      | none =>
          .ok { anomalies := fallbackAnomalies categoryId transactions,
                categoryId := categoryId,
                method := some "Sliding window detection", message := none }

/-- First-insertion-order deduplication, the behaviour of filling a JS
`Set` and reading it back with `Array.from` (lines 273-281). -/
def insertionDedup (l : List String) : List String :=
  l.foldl (fun acc c => if c ∈ acc then acc else acc ++ [c]) []

/-- The aggregator's comparator as a `le` relation: `a` may precede `b` iff
`a` has the later date, or the dates coincide and `|score a| ≥ |score b|`
(lines 302-312), absolute values compared through their squares. -/
def aggOrd (a b : Anomaly) : Prop :=
  jsTime b.tx < jsTime a.tx ∨
    (jsTime a.tx = jsTime b.tx ∧ absSqLe b.anomalyScore a.anomalyScore = true)

instance : DecidableRel aggOrd := fun a b =>
  inferInstanceAs (Decidable (jsTime b.tx < jsTime a.tx ∨
    (jsTime a.tx = jsTime b.tx ∧ absSqLe b.anomalyScore a.anomalyScore = true)))

/-- `detectAnomaliesForUser` (lines 255-320).  `fetchAll` is the snapshot
of all the user's expense transactions (or a store failure, rethrown by
the outer `catch`).  The per-category fetches are modelled as the
category filter of the same snapshot, date-ascending — the consistent-
snapshot reading of the re-issued Firestore queries. -/
def detectAnomaliesForUser (now : ℤ) (ml : List (List ℚ) → MLOutcome)
    (fetchAll : Except String (List Tx)) : Except String (List Anomaly) :=
  match fetchAll with
  | .error e => .error e
  | .ok txs =>
    if txs.length = 0 then .ok []
    else
      let categories :=
        insertionDedup ((txs.filter (fun t => t.category != "")).map Tx.category)
      if categories.length = 0 then .ok []
      else
        match (categories.map (fun c =>
            detectAnomaliesForCategory now ml c
              (.ok (sortByDateAsc (txs.filter (fun t => t.category == c)))))).mapM id with
        | .error e => .error e
        | .ok results =>
            .ok (((results.map CategoryResult.anomalies).flatten).insertionSort aggOrd)

/-- The non-null return value of `checkTransactionForAnomaly`: the spread
transaction plus `isAnomaly` and, when anomalous, score and reason. -/
structure CheckOut where
  tx : Tx
  isAnomaly : Bool
  anomalyScore : Option ScoreRepr
  reason : Option String
deriving DecidableEq

/-- The inline reason text of the single-transaction check (lines 372-379);
same banding as the window detector, slightly different wording. -/
def checkReason (cur : Tx) (amt m v : ℚ) : String :=
  if (ScoreRepr.window (amt - m) v).gtQ 5 then
    "This expense of $" ++ toFixedQ 2 amt ++
      " is extremely high compared to your typical " ++ nameOr cur ++
      " spending of around $" ++ toFixedQ 2 m ++ "."
  else if (ScoreRepr.window (amt - m) v).gtQ 3 then
    "This expense is significantly higher than your average " ++ nameOr cur ++
      " spending."
  else
    "This " ++ nameOr cur ++
      " expense is higher than your typical spending pattern."

/-- `checkTransactionForAnomaly` (lines 323-397).  `fetch` is the snapshot
of same-category expense transactions.  Note the `catch` on lines 393-396:
ANY error — including a store failure — is swallowed and `null` returned,
so the function's type has no error channel at all.  A `NaN` amount
anywhere makes `threshold` (or the current amount) `NaN`, the `>` is
`false`, and the non-anomalous record is returned. -/
def checkTransactionForAnomaly (fetch : Except String (List Tx)) (transaction : Tx) :
    Option CheckOut :=
  match fetch with
  | .error _ => none
  | .ok fetched =>
    let past := fetched.filter (fun t => t.id != transaction.id)
    if past.length < 5 then none
    else
      match past.mapM Tx.amount, transaction.amount with
      | some contextAmounts, some amt =>
        let m := meanOf contextAmounts
        let v := varOf contextAmounts
        if exceedsThreshold amt m v then
          some { tx := transaction, isAnomaly := true,
                 anomalyScore := some (.window (amt - m) v),
                 reason := some (checkReason transaction amt m v) }
        else
          some { tx := transaction, isAnomaly := false,
                 anomalyScore := none, reason := none }
      | _, _ =>
          some { tx := transaction, isAnomaly := false,
                 anomalyScore := none, reason := none }

/-! ## Concrete inputs used by the evaluation theorems and witnesses -/

/-- A well-formed transaction with explicit id, date-time and amount. -/
def mkTxI (s : String) (time : ℤ) (amt : ℚ) : Tx :=
  { id := s, amount := some amt, date := some ⟨time, 1, 0⟩,
    category := "food", categoryName := none }

/-- A well-formed transaction with index-valued date and given amount. -/
def mkTx (n : ℕ) (amt : ℚ) : Tx := mkTxI "p" (n : ℤ) amt

/-- Five identical amounts followed by a spike: the context window at index
5 has variance 0. -/
def c1Txs : List Tx :=
  [mkTx 0 100, mkTx 1 100, mkTx 2 100, mkTx 3 100, mkTx 4 100, mkTx 5 10000]

/-- Context amounts [10,10,10,10,16] (mean 56/5, variance 144/25 > 0) and a
current amount 100 exceeding the threshold. -/
def c10Txs : List Tx :=
  [mkTx 0 10, mkTx 1 10, mkTx 2 10, mkTx 3 10, mkTx 4 16, mkTx 5 100]

/-- A transaction dated 90 days after `now = 0`. -/
def futureTx : Tx :=
  { id := "f", amount := some 5, date := some ⟨7776000000, 1, 4⟩,
    category := "c", categoryName := none }

/-- A transaction with unparseable amount and invalid date. -/
def invalidTx : Tx :=
  { id := "x", amount := none, date := none, category := "c", categoryName := none }

/-- A transaction dated exactly 30 days before `now = 0`. -/
def pastTx : Tx :=
  { id := "p", amount := some 5, date := some ⟨-2592000000, 1, 4⟩,
    category := "c", categoryName := none }

/-! ## Claim theorems -/

/-- C1 (code_bug evidence): the source has no guard for a zero standard
deviation.  On five context amounts of 100 followed by a current amount of
10000 the context variance is 0, yet the transaction IS flagged — with the
score `(10000 - 100)/0`, i.e. JS `Infinity` (`ScoreRepr.window 9900 0`) —
and `checkTransactionForAnomaly` flags the same configuration, contradicting
the claim that a zero-sigma window can never flag. -/
theorem c1_sigma_zero_window_flags_anyway :
    windowStats (contextAt (sortByDateAsc c1Txs) 5) = some (100, 0) ∧
    (flagAt (sortByDateAsc c1Txs) 5).isSome = true ∧
    (flagAt (sortByDateAsc c1Txs) 5).map Anomaly.anomalyScore =
      some (.window 9900 0) ∧
    (checkTransactionForAnomaly (.ok (c1Txs.take 5)) (mkTxI "c" 5 10000)).map
      CheckOut.isAnomaly = some true := by
  have hs : sortByDateAsc c1Txs = c1Txs := List.Sorted.insertionSort_eq (by decide)
  refine ⟨?_, ?_, ?_, ?_⟩
  · rw [hs]
    norm_num [windowStats, contextAt, c1Txs, mkTx, mkTxI, meanOf, varOf, windowSize,
      List.mapM, List.mapM.loop]
  · rw [hs]
    norm_num [flagAt, windowStats, contextAt, c1Txs, mkTx, mkTxI, meanOf, varOf,
      windowSize, List.mapM, List.mapM.loop, exceedsThreshold]
  · rw [hs]
    norm_num [flagAt, windowStats, contextAt, c1Txs, mkTx, mkTxI, meanOf, varOf,
      windowSize, List.mapM, List.mapM.loop, exceedsThreshold]
  · norm_num [checkTransactionForAnomaly, c1Txs, mkTx, mkTxI, meanOf, varOf,
      List.mapM, List.mapM.loop, exceedsThreshold, List.filter_cons, List.filter_nil]
    simp

/-- C3 (counterexample): a store failure handed to
`checkTransactionForAnomaly` is NOT surfaced as a hard failure — the
`catch` on lines 393-396 returns `null`, the very same value a normal
insufficient-data call returns, so the failure is masked in a normal
return value. -/
theorem c3_check_masks_store_failure :
    checkTransactionForAnomaly (.error "database unavailable") (mkTx 0 100) = none ∧
    checkTransactionForAnomaly (.ok []) (mkTx 0 100) = none :=
  ⟨rfl, rfl⟩

/-- C3 (amended): `detectAnomaliesForCategory` and `detectAnomaliesForUser`
rethrow store/fetch failures to their caller, but
`checkTransactionForAnomaly` catches every error and returns `null`,
indistinguishable from its insufficient-data result. -/
theorem c3_store_failure_propagation_amended (now : ℤ)
    (ml : List (List ℚ) → MLOutcome) (categoryId e : String) (t : Tx) :
    detectAnomaliesForCategory now ml categoryId (.error e) = .error e ∧
    detectAnomaliesForUser now ml (.error e) = .error e ∧
    checkTransactionForAnomaly (.error e) t = none :=
  ⟨rfl, rfl, rfl⟩

/-- C4: with fewer than 5 qualifying transactions,
`detectAnomaliesForCategory` returns the empty-anomaly result with the
informational message and `checkTransactionForAnomaly` (counting prior
same-category transactions other than the checked one) returns `null`;
neither errors. -/
theorem c4_insufficient_data (now : ℤ) (ml : List (List ℚ) → MLOutcome)
    (categoryId : String) (txs past : List Tx) (t : Tx) :
    (txs.length < 5 →
      detectAnomaliesForCategory now ml categoryId (.ok txs) =
        .ok { anomalies := [], categoryId := categoryId, method := none,
              message := some "Not enough transaction data for anomaly detection" }) ∧
    ((past.filter (fun p => p.id != t.id)).length < 5 →
      checkTransactionForAnomaly (.ok past) t = none) := by
  constructor
  · intro h
    simp only [detectAnomaliesForCategory, if_pos h]
  · intro h
    simp only [checkTransactionForAnomaly, if_pos h]

/-- Witness for C4 at the empty fetch. -/
theorem c4_insufficient_data_witness :
    detectAnomaliesForCategory 0 (fun _ => .throws) "food" (.ok []) =
      .ok { anomalies := [], categoryId := "food", method := none,
            message := some "Not enough transaction data for anomaly detection" } ∧
    checkTransactionForAnomaly (.ok []) (mkTx 0 100) = none :=
  ⟨(c4_insufficient_data 0 (fun _ => .throws) "food" [] [] (mkTx 0 100)).1 (by decide),
   (c4_insufficient_data 0 (fun _ => .throws) "food" [] [] (mkTx 0 100)).2 (by decide)⟩

/-- C6 (counterexample): recency is NOT always in [0,1] — a valid date 90
days in the future of `now = 0` yields recency `min(1, -3) = -3 < 0`. -/
theorem c6_future_date_recency_negative :
    (preprocessTransaction 0 futureTx)[3]? = some (-3 : ℚ) ∧
    ¬ (0 ≤ (-3 : ℚ)) := by
  refine ⟨by with_unfolding_all decide, by with_unfolding_all decide⟩

/-- C6 (amended): the feature vector has 4 entries; an unparseable amount
yields 0; an invalid date yields day-of-month 1, day-of-week 0 and recency
1/2; a valid date yields recency `min(1, (now - time)/30 days)`, which lies
in [0,1] whenever the transaction time is not in the future. -/
theorem c6_feature_vector_amended (now : ℤ) (t : Tx) :
    (preprocessTransaction now t).length = 4 ∧
    (t.amount = none → (preprocessTransaction now t)[0]? = some 0) ∧
    (t.date = none →
      (preprocessTransaction now t)[1]? = some 1 ∧
      (preprocessTransaction now t)[2]? = some 0 ∧
      (preprocessTransaction now t)[3]? = some (1 / 2)) ∧
    (∀ d : JSDate, t.date = some d →
      (preprocessTransaction now t)[3]? =
        some (jsMin 1 (((now : ℚ) - (d.time : ℚ)) / (1000 * 60 * 60 * 24 * 30))) ∧
      (d.time ≤ now →
        ∃ r, (preprocessTransaction now t)[3]? = some r ∧ 0 ≤ r ∧ r ≤ 1)) := by
  refine ⟨rfl, ?_, ?_, ?_⟩
  · intro h; simp [preprocessTransaction, h]
  · intro h; simp [preprocessTransaction, h]
  · intro d hd
    refine ⟨by simp [preprocessTransaction, hd], ?_⟩
    intro hle
    have hx : (0 : ℚ) ≤ ((now : ℚ) - (d.time : ℚ)) / (1000 * 60 * 60 * 24 * 30) := by
      refine div_nonneg ?_ (by norm_num)
      have : (d.time : ℚ) ≤ (now : ℚ) := by exact_mod_cast hle
      linarith
    refine ⟨jsMin 1 (((now : ℚ) - (d.time : ℚ)) / (1000 * 60 * 60 * 24 * 30)),
      by simp [preprocessTransaction, hd], ?_, ?_⟩
    · unfold jsMin; split <;> [norm_num; linarith]
    · unfold jsMin; split <;> [exact le_refl 1; linarith [le_of_not_le (by assumption)]]

/-- Witness for C6 at an invalid-date transaction and a 30-day-old one. -/
theorem c6_feature_vector_amended_witness :
    (preprocessTransaction 0 invalidTx)[0]? = some 0 ∧
    (preprocessTransaction 0 invalidTx)[3]? = some (1 / 2) ∧
    (∃ r, (preprocessTransaction 0 pastTx)[3]? = some r ∧ 0 ≤ r ∧ r ≤ 1) :=
  ⟨(c6_feature_vector_amended 0 invalidTx).2.1 rfl,
   ((c6_feature_vector_amended 0 invalidTx).2.2.1 rfl).2.2,
   ((c6_feature_vector_amended 0 pastTx).2.2.2 ⟨-2592000000, 1, 4⟩ rfl).2 (by decide)⟩

/-- C9 (counterexample): `detectAnomaliesWithSlidingWindow` does NOT leave
the caller's sequence unchanged — line 42 sorts the caller's array in
place, so an input that is not date-ascending comes back reordered. -/
theorem c9_inplace_sort_reorders_input :
    slidingWindowArrayAfterCall [mkTx 1 50, mkTx 0 60] ≠ [mkTx 1 50, mkTx 0 60] := by
  with_unfolding_all decide

/-- C9 (amended): the in-place sort is the only mutation — the caller's
array afterwards is a permutation of the input (same contents), and equals
the input exactly when the input was already date-ascending. -/
theorem c9_sliding_window_frame_amended (txs : List Tx) :
    (slidingWindowArrayAfterCall txs).Perm txs ∧
    (txs.Pairwise (fun a b => jsTime a ≤ jsTime b) →
      slidingWindowArrayAfterCall txs = txs) := by
  constructor
  · exact List.perm_insertionSort dateLe txs
  · intro h
    exact List.Sorted.insertionSort_eq h

/-- Witness for C9 at a date-ascending two-element list. -/
theorem c9_sliding_window_frame_amended_witness :
    (slidingWindowArrayAfterCall [mkTx 0 60, mkTx 1 50]).Perm [mkTx 0 60, mkTx 1 50] ∧
    slidingWindowArrayAfterCall [mkTx 0 60, mkTx 1 50] = [mkTx 0 60, mkTx 1 50] :=
  ⟨(c9_sliding_window_frame_amended [mkTx 0 60, mkTx 1 50]).1,
   (c9_sliding_window_frame_amended [mkTx 0 60, mkTx 1 50]).2 (by decide)⟩

/-- A failed model outcome yields no usable score list: a raise is `none`
directly, and a `NaN` score poisons the collected list. -/
theorem mlScores?_eq_none_of_fails {o : MLOutcome} (h : o.fails) :
    mlScores? o = none := by
  cases o with
  | throws => rfl
  | scores ss =>
    simp only [MLOutcome.fails] at h
    simp only [mlScores?]
    induction ss with
    | nil => cases h
    | cons a as ih =>
      cases a with
      | none => rfl
      | some q =>
        have hmem : none ∈ as := by
          rcases List.mem_cons.mp h with h0 | h0
          · cases h0
          · exact h0
        rw [List.mapM_cons, ih hmem]
        rfl

/-- C2: when at least 5 transactions were fetched and the isolation-forest
step fails (raise or non-numeric score), `detectAnomaliesForCategory`
catches the failure, runs the sliding-window detector on the same
transactions, and returns the fallback result labelled
`method = "Sliding window detection"` — never an error. -/
theorem c2_model_failure_falls_back (now : ℤ) (ml : List (List ℚ) → MLOutcome)
    (categoryId : String) (txs : List Tx) (h5 : ¬ txs.length < 5)
    (hfail : (ml (preprocessTransactions now txs)).fails) :
    detectAnomaliesForCategory now ml categoryId (.ok txs) =
      .ok { anomalies := fallbackAnomalies categoryId txs,
            categoryId := categoryId,
            method := some "Sliding window detection", message := none } := by
  simp only [detectAnomaliesForCategory, if_neg h5,
    mlScores?_eq_none_of_fails hfail]

/-- Witness for C2: six transactions, a model that raises. -/
theorem c2_model_failure_falls_back_witness :
    detectAnomaliesForCategory 0 (fun _ => .throws) "food" (.ok c10Txs) =
      .ok { anomalies := fallbackAnomalies "food" c10Txs, categoryId := "food",
            method := some "Sliding window detection", message := none } :=
  c2_model_failure_falls_back 0 (fun _ => .throws) "food" c10Txs (by decide) trivial

/-- Two lists that agree at every index below `i` have the same `take i`. -/
theorem take_eq_of_agree {α : Type} :
    ∀ (i : ℕ) (l l' : List α), (∀ j, j < i → l[j]? = l'[j]?) →
      l.take i = l'.take i := by
  intro i
  induction i with
  | zero => intro l l' _; simp
  | succ n ih =>
    intro l l' h
    cases l with
    | nil =>
      cases l' with
      | nil => rfl
      | cons b bs =>
        have h0 := h 0 (Nat.succ_pos n)
        simp at h0
    | cons a as =>
      cases l' with
      | nil =>
        have h0 := h 0 (Nat.succ_pos n)
        simp at h0
      | cons b bs =>
        have h0 := h 0 (Nat.succ_pos n)
        simp only [List.getElem?_cons_zero, Option.some.injEq] at h0
        subst h0
        simp only [List.take_succ_cons, List.cons.injEq, true_and]
        exact ih as bs (fun j hj => by
          have hj1 := h (j + 1) (Nat.succ_lt_succ hj)
          simpa using hj1)

/-- C7: whether index `i ≥ 5` of the date-ascending array is flagged is a
function of the entries at indices `≤ i` alone — the context window is
`slice(i - min(10,i), i)` and the current record is entry `i` — so mutating
any entry after index `i` cannot change the decision at `i`. -/
theorem c7_no_lookahead (l l' : List Tx) (i : ℕ) (_h5 : 5 ≤ i)
    (_hlen : l.length = l'.length) (hag : ∀ j, j ≤ i → l[j]? = l'[j]?) :
    flagAt l i = flagAt l' i := by
  have hcur : l[i]? = l'[i]? := hag i le_rfl
  have htake : l.take i = l'.take i :=
    take_eq_of_agree i l l' (fun j hj => hag j (le_of_lt hj))
  unfold flagAt contextAt
  rw [hcur, htake]

/-- Seven equal-amount transactions. -/
def c7L : List Tx :=
  [mkTx 0 100, mkTx 1 100, mkTx 2 100, mkTx 3 100, mkTx 4 100, mkTx 5 100, mkTx 6 100]

/-- Same list with the entry after index 5 mutated. -/
def c7L' : List Tx :=
  [mkTx 0 100, mkTx 1 100, mkTx 2 100, mkTx 3 100, mkTx 4 100, mkTx 5 100, mkTx 6 999999]

/-- Witness for C7: mutating index 6 does not change the decision at
index 5. -/
theorem c7_no_lookahead_witness : flagAt c7L 5 = flagAt c7L' 5 :=
  c7_no_lookahead c7L c7L' 5 (by decide) (by decide)
    (fun j hj => by interval_cases j <;> rfl)

/-- Totality of the absolute-score comparison. -/
theorem absSqLe_total (s t : ScoreRepr) :
    absSqLe s t = true ∨ absSqLe t s = true := by
  unfold absSqLe
  rcases hs : absSqVal s with _ | a <;> rcases ht : absSqVal t with _ | b <;> simp
  exact le_total a b

/-- Transitivity of the absolute-score comparison. -/
theorem absSqLe_trans {s t u : ScoreRepr} (h1 : absSqLe s t = true)
    (h2 : absSqLe t u = true) : absSqLe s u = true := by
  unfold absSqLe at h1 h2 ⊢
  rcases hs : absSqVal s with _ | a <;> rcases ht : absSqVal t with _ | b <;>
    rcases hu : absSqVal u with _ | c <;> simp_all
  exact le_trans h1 h2

instance : IsTotal Anomaly aggOrd :=
  ⟨fun a b => by
    unfold aggOrd
    rcases lt_trichotomy (jsTime a.tx) (jsTime b.tx) with h | h | h
    · exact Or.inr (Or.inl h)
    · rcases absSqLe_total b.anomalyScore a.anomalyScore with hs | hs
      · exact Or.inl (Or.inr ⟨h, hs⟩)
      · exact Or.inr (Or.inr ⟨h.symm, hs⟩)
    · exact Or.inl (Or.inl h)⟩

instance : IsTrans Anomaly aggOrd :=
  ⟨fun a b c hab hbc => by
    unfold aggOrd at hab hbc ⊢
    rcases hab with h1 | ⟨he1, hs1⟩ <;> rcases hbc with h2 | ⟨he2, hs2⟩
    · exact Or.inl (lt_trans h2 h1)
    · exact Or.inl (he2 ▸ h1)
    · exact Or.inl (by rw [he1]; exact h2)
    · exact Or.inr ⟨he1.trans he2, absSqLe_trans hs2 hs1⟩⟩

/-- C5: every successful result of `detectAnomaliesForUser` is pairwise
ordered by `aggOrd` — later date first; on equal dates larger absolute
anomaly score first. -/
theorem c5_user_feed_sorted (now : ℤ) (ml : List (List ℚ) → MLOutcome)
    (fetchAll : Except String (List Tx)) (l : List Anomaly)
    (h : detectAnomaliesForUser now ml fetchAll = .ok l) :
    l.Pairwise aggOrd := by
  unfold detectAnomaliesForUser at h
  cases fetchAll with
  | error e => exact absurd h (by simp)
  | ok txs =>
    dsimp only at h
    by_cases h0 : txs.length = 0
    · rw [if_pos h0] at h
      obtain rfl : ([] : List Anomaly) = l := by simpa using h
      exact List.Pairwise.nil
    · rw [if_neg h0] at h
      by_cases h1 :
          (insertionDedup ((txs.filter (fun t => t.category != "")).map Tx.category)).length = 0
      · rw [if_pos h1] at h
        obtain rfl : ([] : List Anomaly) = l := by simpa using h
        exact List.Pairwise.nil
      · rw [if_neg h1] at h
        split at h
        · exact absurd h (by simp)
        · have hl := Except.ok.inj h
          exact hl ▸ List.sorted_insertionSort aggOrd _

/-- Witness for C5 at the empty store (result `.ok []`). -/
theorem c5_user_feed_sorted_witness : List.Pairwise aggOrd ([] : List Anomaly) :=
  c5_user_feed_sorted 0 (fun _ => .throws) (.ok []) [] rfl

/-- `sub` occurs as a contiguous substring of `s`. -/
def strHas (sub s : String) : Prop := sub.toList <:+: s.toList

instance (sub s : String) : Decidable (strHas sub s) :=
  inferInstanceAs (Decidable (sub.toList <:+: s.toList))

/-- A substring of the right part survives prepending. -/
theorem strHas_append_right {sub : String} (s₁ s₂ : String) (h : strHas sub s₂) :
    strHas sub (s₁ ++ s₂) := by
  unfold strHas at h ⊢
  simp only [String.toList, String.data_append]
  exact h.trans (List.suffix_append s₁.data s₂.data).isInfix

/-- A substring of the left part survives appending. -/
theorem strHas_append_left {sub : String} (s₁ s₂ : String) (h : strHas sub s₁) :
    strHas sub (s₁ ++ s₂) := by
  unfold strHas at h ⊢
  simp only [String.toList, String.data_append]
  exact h.trans (List.prefix_append s₁.data s₂.data).isInfix

/-- Qualifying set with amounts [10, 20, 30, 40, 100]: mean 40, max 100. -/
def c8Txs : List Tx :=
  [mkTx 0 10, mkTx 1 20, mkTx 2 30, mkTx 3 40, mkTx 4 100]

/-- C8 (amended): the outlier-path Reason Generator picks, in cascade
order on `ratio = amount / mean`: the exact-multiplier text for
`ratio > 3`; the "significantly higher than your typical" text for
`ratio` in (3/2, 3]; the "largest recorded expense" text when the amount
equals the maximum (and `ratio ≤ 3/2`); and otherwise the generic
"unusual pattern" text — which does NOT name the weekday (the source
computes the weekday but never interpolates it). -/
theorem c8_reason_bands_amended (a : Tx) (txs : List Tx) (amounts : List ℚ)
    (amt : ℚ) (hts : txs.mapM Tx.amount = some amounts) (ha : a.amount = some amt)
    (_havg : meanOf amounts ≠ 0) :
    (3 < amt / meanOf amounts →
      strHas "x higher than your average" (generateAnomalyReason a txs)) ∧
    (3 / 2 < amt / meanOf amounts ∧ amt / meanOf amounts ≤ 3 →
      strHas "significantly higher than your typical" (generateAnomalyReason a txs)) ∧
    (amt / meanOf amounts ≤ 3 / 2 ∧ amt = listMaxQ amounts →
      strHas "largest recorded expense" (generateAnomalyReason a txs)) ∧
    (amt / meanOf amounts ≤ 3 / 2 ∧ amt ≠ listMaxQ amounts →
      strHas "unusual pattern" (generateAnomalyReason a txs)) := by
  have hg : generateAnomalyReason a txs =
      (if 3 < amt / meanOf amounts then
        "This expense is " ++ toFixedQ 1 (amt / meanOf amounts) ++
          "x higher than your average " ++ nameOr a ++ " spending."
      else if 3 / 2 < amt / meanOf amounts then
        "This expense is significantly higher than your typical " ++ nameOr a ++
          " transactions."
      else if amt = listMaxQ amounts then
        "This is your largest recorded expense in the " ++ nameOr a ++ " category."
      else
        "This " ++ nameOr a ++
          " expense has an unusual pattern (timing, amount, or frequency) compared to your typical spending.") := by
    unfold generateAnomalyReason
    rw [hts, ha]
  rw [hg]
  refine ⟨?_, ?_, ?_, ?_⟩
  · intro h
    rw [if_pos h]
    exact strHas_append_left _ _
      (strHas_append_left _ _ (strHas_append_right _ _ (by decide)))
  · rintro ⟨h1, h2⟩
    rw [if_neg (not_lt.mpr h2), if_pos h1]
    exact strHas_append_left _ _ (strHas_append_left _ _ (by decide))
  · rintro ⟨h1, h2⟩
    rw [if_neg (not_lt.mpr (le_trans h1 (by norm_num))),
      if_neg (not_lt.mpr h1), if_pos h2]
    exact strHas_append_left _ _ (strHas_append_left _ _ (by decide))
  · rintro ⟨h1, h2⟩
    rw [if_neg (not_lt.mpr (le_trans h1 (by norm_num))),
      if_neg (not_lt.mpr h1), if_neg h2]
    exact strHas_append_right _ _ (by decide)

/-- C8 (counterexample): a transaction in the generic branch (`ratio ≤ 3/2`,
amount below the maximum) whose weekday is Sunday, yet whose generated
reason does not contain "Sunday" — the claim that the generic reason names
the weekday is false. -/
theorem c8_generic_reason_lacks_weekday :
    ((10 : ℚ) / meanOf [10, 20, 30, 40, 100] ≤ 3 / 2) ∧
    ((10 : ℚ) ≠ listMaxQ [10, 20, 30, 40, 100]) ∧
    weekdayNameOf (mkTx 0 10) = "Sunday" ∧
    ¬ strHas "Sunday" (generateAnomalyReason (mkTx 0 10) c8Txs) := by
  refine ⟨by norm_num [meanOf], by norm_num [listMaxQ, jsMax], rfl, ?_⟩
  have hr : generateAnomalyReason (mkTx 0 10) c8Txs =
      "This " ++ nameOr (mkTx 0 10) ++
        " expense has an unusual pattern (timing, amount, or frequency) compared to your typical spending." := by
    norm_num [generateAnomalyReason, c8Txs, mkTx, mkTxI, meanOf, listMaxQ, jsMax,
      List.mapM, List.mapM.loop]
  rw [hr]
  set_option maxRecDepth 2000 in decide

/-- Witness for C8: amounts [10,20,30,40,100], checked transaction of
amount 100 (ratio 5/2, the middle band). -/
theorem c8_reason_bands_amended_witness :
    strHas "significantly higher than your typical"
      (generateAnomalyReason (mkTx 4 100) c8Txs) :=
  (c8_reason_bands_amended (mkTx 4 100) c8Txs [10, 20, 30, 40, 100] 100 rfl rfl
    (by norm_num [meanOf])).2.1 (by norm_num [meanOf])

/-- C10: every anomaly emitted by the sliding-window detector carries a
`window`-score pair; when its variance component is nonzero, the real
score `d/√v` exceeds 5/2 (so `gtQ (5/2)` holds) and its numerator
`d = amount - mean` is positive — every such score is positive. -/
theorem c10_window_score_exceeds_threshold (txs : List Tx) (a : Anomaly)
    (d v : ℚ) (ha : a ∈ detectAnomaliesWithSlidingWindow txs)
    (hs : a.anomalyScore = .window d v) (hv : v ≠ 0) :
    a.anomalyScore.gtQ (5 / 2) = true ∧ 0 < d := by
  obtain ⟨i, hmem, hi⟩ :
      ∃ i, i ∈ (List.range (sortByDateAsc txs).length).drop minWindowSize ∧
        flagAt (sortByDateAsc txs) i = some a := by
    simpa [detectAnomaliesWithSlidingWindow, List.mem_filterMap] using ha
  clear hmem
  unfold flagAt at hi
  split at hi
  · exact absurd hi (by simp)
  next cur heq =>
    split at hi
    next m v' amt hws hamt =>
      by_cases hex : exceedsThreshold amt m v' = true
      · rw [if_pos hex] at hi
        obtain rfl := Option.some.inj hi
        simp only [Anomaly.anomalyScore] at hs ⊢
        obtain ⟨rfl, rfl⟩ : amt - m = d ∧ v' = v := by
          have h1 := congrArg (fun s => match s with
            | ScoreRepr.window x _ => x | ScoreRepr.model x => x) hs
          have h2 := congrArg (fun s => match s with
            | ScoreRepr.window _ y => y | ScoreRepr.model y => y) hs
          exact ⟨h1, h2⟩
        unfold exceedsThreshold at hex
        rw [Bool.and_eq_true, decide_eq_true_iff, decide_eq_true_iff] at hex
        obtain ⟨hm, hq⟩ := hex
        have hd : 0 < amt - m := by linarith
        refine ⟨?_, hd⟩
        simp only [ScoreRepr.gtQ, if_neg hv]
        rw [Bool.and_eq_true, decide_eq_true_iff, decide_eq_true_iff]
        exact ⟨hd, by nlinarith [hq]⟩
      · rw [if_neg hex] at hi
        exact absurd hi (by simp)
    next h1 h2 => exact absurd hi (by simp)

/-- The single anomaly record the sliding-window detector produces on
`c10Txs`. -/
def c10Anom : Anomaly :=
  { tx := mkTx 5 100, anomalyScore := .window (444 / 5) (144 / 25),
    reason := windowReason (mkTx 5 100) 100 (56 / 5) (144 / 25) }

/-- Witness for C10 on `c10Txs` (context mean 56/5, variance 144/25). -/
theorem c10_window_score_exceeds_threshold_witness :
    (Anomaly.anomalyScore c10Anom).gtQ (5 / 2) = true ∧ 0 < (444 / 5 : ℚ) :=
  c10_window_score_exceeds_threshold c10Txs c10Anom (444 / 5) (144 / 25)
    (by
      have hsr : sortByDateAsc c10Txs = c10Txs :=
        List.Sorted.insertionSort_eq (by decide)
      have hev : detectAnomaliesWithSlidingWindow c10Txs = [c10Anom] := by
        simp only [detectAnomaliesWithSlidingWindow]
        rw [hsr]
        norm_num [minWindowSize, List.range_succ, flagAt, windowStats, contextAt,
          meanOf, varOf, windowSize, c10Txs, mkTx, mkTxI, List.mapM, List.mapM.loop,
          exceedsThreshold, c10Anom, List.filterMap_cons, List.filterMap_nil,
          List.getElem?_cons_succ, List.getElem?_cons_zero]
      rw [hev]
      exact List.mem_singleton.mpr rfl)
    rfl (by norm_num)
